import Mathlib

/-!
Verification of the LernifyRoad roadmap-progress state machine.

This file gives a shallow embedding of the progress-related code of
`src/main.py` (the static roadmap catalog, `select_domain`,
`submit_assessment`, `dashboard_progress`, `final_assessment`) and proves
properties of that embedding.  Database documents become a Lean structure
`RoadmapProgress`; each endpoint becomes a pure function from the relevant
input and the stored record (when one exists) to either an error or the
updated record together with the HTTP response payload.
-/

namespace Lernify

/-- State of one roadmap step inside a progress record.  In the Python code
these are the strings `"locked"`, `"unlocked"`, `"passed"`. -/
inductive StepState where
  | locked
  | unlocked
  | passed
deriving DecidableEq, Repr

/-- One catalog entry of `DEFAULT_ROADMAPS` in `src/main.py`. -/
structure RoadmapStep where
  id : String
  title : String
  description : String
  assessment_marks : Nat
deriving DecidableEq, Repr

/-- The `"Frontend Development"` entry of `DEFAULT_ROADMAPS`. -/
def frontendSteps : List RoadmapStep :=
  [ ⟨"html-css", "HTML & CSS Basics", "Learn HTML tags and CSS fundamentals", 20⟩,
    ⟨"js-fund", "JavaScript Fundamentals", "Variables, loops, functions", 20⟩,
    ⟨"react-basics", "React Basics", "Components, state, props", 20⟩ ]

/-- The `"Backend Development"` entry of `DEFAULT_ROADMAPS`. -/
def backendSteps : List RoadmapStep :=
  [ ⟨"python-basics", "Python Basics", "Syntax, data structures", 20⟩,
    ⟨"api-design", "API Design", "REST principles & auth", 20⟩,
    ⟨"database", "Databases", "MongoDB CRUD & indexing", 20⟩ ]

/-- The `"AI & ML"` entry of `DEFAULT_ROADMAPS`. -/
def aimlSteps : List RoadmapStep :=
  [ ⟨"py-numpy", "Python + NumPy", "Data handling with NumPy", 20⟩,
    ⟨"pandas-ml", "Pandas & ML Intro", "Pandas, scikit-learn basics", 20⟩,
    ⟨"models", "Models & Evaluation", "Train/test split, metrics", 20⟩ ]

/-- The static `DEFAULT_ROADMAPS` dictionary of `src/main.py`, as an
association list keyed by domain name. -/
def DEFAULT_ROADMAPS : List (String × List RoadmapStep) :=
  [ ("Frontend Development", frontendSteps),
    ("Backend Development", backendSteps),
    ("AI & ML", aimlSteps) ]

/-- `ALLOWED_DOMAINS = list(DEFAULT_ROADMAPS.keys())` in `src/main.py`. -/
def ALLOWED_DOMAINS : List String := DEFAULT_ROADMAPS.map Prod.fst

/-- `PASS_MARKS = 12` in `src/main.py`. -/
def PASS_MARKS : Nat := 12

/-- Dictionary lookup `DEFAULT_ROADMAPS[domain]`. -/
def stepsFor (domain : String) : Option (List RoadmapStep) :=
  DEFAULT_ROADMAPS.lookup domain

/-- One entry of a progress record's `results` array, as pushed by
`submit_assessment` in `src/main.py`. -/
structure AssessmentResult where
  domain : String
  step_id : String
  score : Nat
  passed : Bool
deriving DecidableEq, Repr

/-- A `roadmapprogress` document.  `final_score` / `final_passed` are absent
until the first final assessment, hence `Option`. -/
structure RoadmapProgress where
  user_id : String
  domain : String
  current_step_index : Nat
  steps_status : List StepState
  results : List AssessmentResult
  final_score : Option Nat := none
  final_passed : Option Bool := none
deriving DecidableEq, Repr

/-- Errors raised (as `HTTPException`) by the progress endpoints. -/
inductive ProgressError where
  | UnknownDomain
  | UnknownStep
  | ProgressNotInitialized
  | NoProgress
  | StepsIncomplete
deriving DecidableEq, Repr

/-- The `/select-domain` endpoint (`select_domain` in `src/main.py`),
restricted to its effect on the `roadmapprogress` document of
`(user_id, domain)`.  `prog` is the stored record, if any; the returned
record is the one stored after the call. -/
def select_domain (user_id domain : String) (prog : Option RoadmapProgress) :
    Except ProgressError RoadmapProgress :=
  if domain ∈ ALLOWED_DOMAINS then
    match prog with
    | some p => .ok p
    | none =>
      match stepsFor domain with
      | some steps =>
          .ok { user_id := user_id
                domain := domain
                current_step_index := 0
                steps_status := .unlocked :: List.replicate (steps.length - 1) .locked
                results := [] }
      | none => .error .UnknownDomain
  else .error .UnknownDomain

/-- Lines 290-295 of `src/main.py`: the new `steps_status` array after a
submission for step `step_index` with outcome `passed`.  The bounds checks,
the write of `"passed"`/`"unlocked"` at `step_index` and the unconditional
unlock of `step_index + 1` on a pass mirror the Python statements. -/
def next_steps_status (step_index : Nat) (passed : Bool) (ss : List StepState) :
    List StepState :=
  if step_index < ss.length then
    let ss1 := ss.set step_index (if passed then .passed else .unlocked)
    if passed ∧ step_index + 1 < ss1.length then
      ss1.set (step_index + 1) .unlocked
    else ss1
  else ss

/-- Lines 296-298 of `src/main.py`: the new `current_step_index`. -/
def next_csi (step_index : Nat) (passed : Bool) (csi : Nat) : Nat :=
  if passed ∧ csi ≤ step_index then step_index + 1 else csi

/-- The `/assessment/submit` endpoint (`submit_assessment` in `src/main.py`).
Input: the payload fields and the stored record for `(user, domain)` if any.
Output: the record after both database updates, plus the returned `passed`
flag.  The pydantic model bounds `score` to `0 ≤ score ≤ 20`; `score : Nat`
carries the lower bound, the upper bound is a hypothesis where needed. -/
def submit_assessment (domain step_id : String) (score : Nat)
    (prog : Option RoadmapProgress) :
    Except ProgressError (RoadmapProgress × Bool) :=
  match stepsFor domain with
  | none => .error .UnknownDomain
  | some steps =>
    let ids := steps.map (·.id)
    if step_id ∈ ids then
      let passed : Bool := PASS_MARKS ≤ score
      match prog with
      | none => .error .ProgressNotInitialized
      | some p =>
        let result : AssessmentResult := ⟨domain, step_id, score, passed⟩
        let step_index := ids.indexOf step_id
        .ok ({ p with
                 results := p.results ++ [result]
                 steps_status := next_steps_status step_index passed p.steps_status
                 current_step_index := next_csi step_index passed p.current_step_index },
             passed)
    else .error .UnknownStep

/-- One item of the `/dashboard/progress` response (`dashboard_progress` in
`src/main.py`) for a single stored record.  Returns `none` when the record's
domain is not in the catalog (the Python code would raise `KeyError`). -/
def dashboard_item (p : RoadmapProgress) : Option (String × Nat × Nat × Nat) :=
  match stepsFor p.domain with
  | none => none
  | some steps =>
    let total := steps.length
    let passed := (p.steps_status.filter (fun s => s = .passed)).length
    some (p.domain, passed, total, passed * 100 / total)

/-- The `/assessment/final/{domain}` endpoint (`final_assessment` in
`src/main.py`).  `score` is bounded `0 ≤ score ≤ 100` by the query
validation.  Output: the updated record and the returned `passed` flag. -/
def final_assessment (domain : String) (score : Nat)
    (prog : Option RoadmapProgress) :
    Except ProgressError (RoadmapProgress × Bool) :=
  if domain ∈ ALLOWED_DOMAINS then
    match prog with
    | none => .error .NoProgress
    | some p =>
      if p.steps_status.all (fun s => s = .passed) then
        let passed : Bool := 60 ≤ score
        .ok ({ p with final_score := some score, final_passed := some passed }, passed)
      else .error .StepsIncomplete
  else .error .UnknownDomain

/-! Helper lemmas shared by the claim theorems. -/

/-- Every successful catalog lookup is for one of the three allowed domains,
and every domain's roadmap has exactly three steps. -/
theorem stepsFor_spec {d : String} {s : List RoadmapStep} (h : stepsFor d = some s) :
    d ∈ ALLOWED_DOMAINS ∧ s.length = 3 := by
  unfold stepsFor DEFAULT_ROADMAPS at h
  simp only [List.lookup] at h
  split at h
  · rename_i hb
    cases h
    exact ⟨by simp [ALLOWED_DOMAINS, DEFAULT_ROADMAPS, eq_of_beq hb], rfl⟩
  · split at h
    · rename_i hb
      cases h
      exact ⟨by simp [ALLOWED_DOMAINS, DEFAULT_ROADMAPS, eq_of_beq hb], rfl⟩
    · split at h
      · rename_i hb
        cases h
        exact ⟨by simp [ALLOWED_DOMAINS, DEFAULT_ROADMAPS, eq_of_beq hb], rfl⟩
      · cases h

/-- Unfolding equation for a submission whose domain and step are valid and
whose progress record exists. -/
theorem submit_assessment_ok {domain step_id : String} {score : Nat}
    {steps : List RoadmapStep} (hd : stepsFor domain = some steps)
    (hs : step_id ∈ steps.map (·.id)) (p : RoadmapProgress) :
    submit_assessment domain step_id score (some p) =
      .ok ({ p with
              results := p.results ++
                [⟨domain, step_id, score, decide (PASS_MARKS ≤ score)⟩]
              steps_status := next_steps_status ((steps.map (·.id)).indexOf step_id)
                (decide (PASS_MARKS ≤ score)) p.steps_status
              current_step_index := next_csi ((steps.map (·.id)).indexOf step_id)
                (decide (PASS_MARKS ≤ score)) p.current_step_index },
           decide (PASS_MARKS ≤ score)) := by
  simp only [submit_assessment, hd]
  rw [if_pos hs]

/-- A successful submission always targets a valid domain and step and an
existing record, and the result record is the one of `submit_assessment_ok`. -/
theorem submit_assessment_ok_inv {domain step_id : String} {score : Nat}
    {prog : Option RoadmapProgress} {p' : RoadmapProgress} {b : Bool}
    (h : submit_assessment domain step_id score prog = .ok (p', b)) :
    ∃ steps p, stepsFor domain = some steps ∧ step_id ∈ steps.map (·.id) ∧
      prog = some p ∧ b = decide (PASS_MARKS ≤ score) ∧
      p' = { p with
              results := p.results ++ [⟨domain, step_id, score, b⟩]
              steps_status := next_steps_status ((steps.map (·.id)).indexOf step_id)
                b p.steps_status
              current_step_index := next_csi ((steps.map (·.id)).indexOf step_id)
                b p.current_step_index } := by
  cases hst : stepsFor domain with
  | none => simp only [submit_assessment, hst] at h; cases h
  | some steps =>
    by_cases hmem : step_id ∈ steps.map (·.id)
    · cases prog with
      | none =>
        simp only [submit_assessment, hst, if_pos hmem] at h
        cases h
      | some p =>
        rw [submit_assessment_ok hst hmem p] at h
        simp only [Except.ok.injEq, Prod.mk.injEq] at h
        obtain ⟨hrec, hb⟩ := h
        subst hb
        exact ⟨steps, p, rfl, hmem, rfl, rfl, hrec.symm⟩
    · simp only [submit_assessment, hst, if_neg hmem] at h
      cases h

/-- `next_steps_status` never changes the length of the state array. -/
theorem length_next_steps_status (i : Nat) (b : Bool) (ss : List StepState) :
    (next_steps_status i b ss).length = ss.length := by
  unfold next_steps_status
  cases b <;> simp only [Bool.false_eq_true, if_false, if_true, false_and, true_and] <;>
    split <;> try split
  all_goals simp

/-- On a pass, the submitted step's entry becomes `passed`. -/
theorem next_steps_status_self_pass {i : Nat} {ss : List StepState}
    (h : i < ss.length) :
    (next_steps_status i true ss)[i]? = some .passed := by
  unfold next_steps_status
  rw [if_pos h]
  simp only [if_true, true_and]
  split
  · rw [List.getElem?_set_ne (by omega), List.getElem?_set_self h]
  · rw [List.getElem?_set_self h]

/-- On a pass, the next step's entry (when in range) becomes `unlocked`. -/
theorem next_steps_status_next_pass {i : Nat} {ss : List StepState}
    (h : i + 1 < ss.length) :
    (next_steps_status i true ss)[i + 1]? = some .unlocked := by
  unfold next_steps_status
  rw [if_pos (by omega)]
  simp only [if_true, true_and]
  rw [if_pos (by simpa using h)]
  exact List.getElem?_set_self (by simpa using h)

/-- On a fail, the submitted step's entry becomes `unlocked`. -/
theorem next_steps_status_self_fail {i : Nat} {ss : List StepState}
    (h : i < ss.length) :
    (next_steps_status i false ss)[i]? = some .unlocked := by
  unfold next_steps_status
  rw [if_pos h]
  simp only [Bool.false_eq_true, if_false, false_and]
  exact List.getElem?_set_self h

/-- Setting a non-`locked` value cannot create a `locked` entry. -/
theorem set_locked_mono {ss : List StepState} {i j : Nat} {a : StepState}
    (ha : a ≠ .locked) (h : (ss.set i a)[j]? = some .locked) :
    ss[j]? = some .locked := by
  rcases eq_or_ne i j with rfl | hij
  · by_cases hi : i < ss.length
    · rw [List.getElem?_set_self hi] at h
      exact absurd (Option.some.inj h) ha
    · rwa [List.set_eq_of_length_le (le_of_not_lt hi)] at h
  · rwa [List.getElem?_set_ne hij] at h

/-- `next_steps_status` never writes `locked`: a `locked` entry after a
submission was already `locked` before it. -/
theorem next_steps_status_locked_mono {i j : Nat} {b : Bool}
    {ss : List StepState} (h : (next_steps_status i b ss)[j]? = some .locked) :
    ss[j]? = some .locked := by
  cases b with
  | false =>
    unfold next_steps_status at h
    simp only [Bool.false_eq_true, if_false, false_and] at h
    split at h
    · exact set_locked_mono (by decide) h
    · exact h
  | true =>
    unfold next_steps_status at h
    simp only [if_true, true_and] at h
    split at h
    · split at h
      · exact set_locked_mono (by decide) (set_locked_mono (by decide) h)
      · exact set_locked_mono (by decide) h
    · exact h

/-- `next_csi` never decreases the current step index. -/
theorem le_next_csi (i : Nat) (b : Bool) (csi : Nat) : csi ≤ next_csi i b csi := by
  unfold next_csi
  split
  · omega
  · exact le_refl csi

/-! Concrete records used to instantiate the theorems. -/

/-- The freshly initialized "Frontend Development" record of user `"u"`,
exactly as inserted by `select_domain`. -/
def fdInit : RoadmapProgress :=
  { user_id := "u", domain := "Frontend Development", current_step_index := 0,
    steps_status := [.unlocked, .locked, .locked], results := [] }

/-- `fdInit` after passing step 0 (`"html-css"`, score 15). -/
def fdStep0Passed : RoadmapProgress :=
  { user_id := "u", domain := "Frontend Development", current_step_index := 1,
    steps_status := [.passed, .unlocked, .locked],
    results := [⟨"Frontend Development", "html-css", 15, true⟩] }

/-- `fdStep0Passed` after passing step 1 (`"js-fund"`, score 18). -/
def fdSteps01Passed : RoadmapProgress :=
  { user_id := "u", domain := "Frontend Development", current_step_index := 2,
    steps_status := [.passed, .passed, .unlocked],
    results := [⟨"Frontend Development", "html-css", 15, true⟩,
                ⟨"Frontend Development", "js-fund", 18, true⟩] }

/-- `fdSteps01Passed` after re-passing step 0: step 1 regresses to
`unlocked`. -/
def fdRegressed : RoadmapProgress :=
  { user_id := "u", domain := "Frontend Development", current_step_index := 2,
    steps_status := [.passed, .unlocked, .unlocked],
    results := [⟨"Frontend Development", "html-css", 15, true⟩,
                ⟨"Frontend Development", "js-fund", 18, true⟩,
                ⟨"Frontend Development", "html-css", 15, true⟩] }

/-- `fdInit` after failing step 0 (`"html-css"`, score 5). -/
def fdFailed0 : RoadmapProgress :=
  { user_id := "u", domain := "Frontend Development", current_step_index := 0,
    steps_status := [.unlocked, .locked, .locked],
    results := [⟨"Frontend Development", "html-css", 5, false⟩] }

/-- `fdInit` after a submission for the still-locked step 1
(`"js-fund"`, score 15), which the code accepts. -/
def fdSkipAhead : RoadmapProgress :=
  { user_id := "u", domain := "Frontend Development", current_step_index := 2,
    steps_status := [.unlocked, .passed, .unlocked],
    results := [⟨"Frontend Development", "js-fund", 15, true⟩] }

/-- A record with every step passed, ready for the final assessment. -/
def fdAllPassed : RoadmapProgress :=
  { user_id := "u", domain := "Frontend Development", current_step_index := 3,
    steps_status := [.passed, .passed, .passed],
    results := [⟨"Frontend Development", "html-css", 15, true⟩,
                ⟨"Frontend Development", "js-fund", 18, true⟩,
                ⟨"Frontend Development", "react-basics", 13, true⟩] }

/-- A record whose `steps_status` is empty. -/
def emptyStepsRecord : RoadmapProgress :=
  { user_id := "u3", domain := "AI & ML", current_step_index := 0,
    steps_status := [], results := [] }

/-- One submission applied through the endpoint; a rejected submission
(an `HTTPException` before any update) leaves the stored record unchanged. -/
def apply_submission (p : RoadmapProgress) (s : String × String × Nat) :
    RoadmapProgress :=
  match submit_assessment s.1 s.2.1 s.2.2 (some p) with
  | .ok (p', _) => p'
  | .error _ => p

/-- A sequence of submissions applied in order. -/
def run_submissions (p : RoadmapProgress) (l : List (String × String × Nat)) :
    RoadmapProgress :=
  l.foldl apply_submission p

/-- A sequence of submissions, all of which must be accepted. -/
def run_submissions_strict (p : RoadmapProgress) :
    List (String × String × Nat) → Option RoadmapProgress
  | [] => some p
  | s :: rest =>
    match submit_assessment s.1 s.2.1 s.2.2 (some p) with
    | .ok (p', _) => run_submissions_strict p' rest
    | .error _ => none

/-- A single accepted submission never decreases `current_step_index`. -/
theorem csi_le_apply_submission (p : RoadmapProgress)
    (s : String × String × Nat) :
    p.current_step_index ≤ (apply_submission p s).current_step_index := by
  unfold apply_submission
  split
  · rename_i p' b h
    obtain ⟨steps, q, hst, hmem, hq, hb, hrec⟩ := submit_assessment_ok_inv h
    obtain rfl := Option.some.inj hq
    subst hrec
    exact le_next_csi _ _ _
  · exact le_refl _

/-! Claim theorems. -/

/-- Claim C1: for every submission accepted by `submit_assessment` (valid
domain, valid step id, existing progress record): with a score in `[12,20]`
the returned `passed` is `true`, the submitted step's state is set to
`passed`, and the next step (when one exists in range) is set to `unlocked`;
with a score in `[0,11]` the returned `passed` is `false` and the submitted
step's state becomes/remains `unlocked`, never `passed`. -/
theorem submit_pass_fail_behaviour (domain step_id : String) (score : Nat)
    (steps : List RoadmapStep) (hd : stepsFor domain = some steps)
    (hs : step_id ∈ steps.map (·.id)) (p : RoadmapProgress)
    (hl : p.steps_status.length = steps.length) :
    ∃ p' : RoadmapProgress,
      (12 ≤ score ∧ score ≤ 20 →
        submit_assessment domain step_id score (some p) = .ok (p', true) ∧
        p'.steps_status[(steps.map (·.id)).indexOf step_id]? = some .passed ∧
        ((steps.map (·.id)).indexOf step_id + 1 < p.steps_status.length →
          p'.steps_status[(steps.map (·.id)).indexOf step_id + 1]? = some .unlocked)) ∧
      (score ≤ 11 →
        submit_assessment domain step_id score (some p) = .ok (p', false) ∧
        p'.steps_status[(steps.map (·.id)).indexOf step_id]? = some .unlocked ∧
        p'.steps_status[(steps.map (·.id)).indexOf step_id]? ≠ some .passed) := by
  have hilt : (steps.map (·.id)).indexOf step_id < p.steps_status.length := by
    rw [hl, ← List.length_map steps (·.id)]
    exact List.indexOf_lt_length.mpr hs
  refine ⟨{ p with
      results := p.results ++
        [⟨domain, step_id, score, decide (PASS_MARKS ≤ score)⟩]
      steps_status := next_steps_status ((steps.map (·.id)).indexOf step_id)
        (decide (PASS_MARKS ≤ score)) p.steps_status
      current_step_index := next_csi ((steps.map (·.id)).indexOf step_id)
        (decide (PASS_MARKS ≤ score)) p.current_step_index },
    fun hsc => ?_, fun hsc => ?_⟩
  · have hp : (decide (PASS_MARKS ≤ score)) = true := by
      simp only [PASS_MARKS, decide_eq_true_eq]
      omega
    rw [submit_assessment_ok hd hs p]
    simp only [hp]
    exact ⟨trivial, next_steps_status_self_pass hilt,
      fun hnext => next_steps_status_next_pass hnext⟩
  · have hp : (decide (PASS_MARKS ≤ score)) = false := by
      simp only [PASS_MARKS, decide_eq_false_iff_not]
      omega
    rw [submit_assessment_ok hd hs p]
    simp only [hp]
    refine ⟨trivial, next_steps_status_self_fail hilt, ?_⟩
    rw [next_steps_status_self_fail hilt]
    simp

/-- Witness for C1 at a concrete input: submitting step `"js-fund"` of
"Frontend Development" with score 15 on the fresh record. -/
theorem submit_pass_fail_behaviour_witness :
    ∃ p' : RoadmapProgress,
      (12 ≤ 15 ∧ 15 ≤ 20 →
        submit_assessment "Frontend Development" "js-fund" 15 (some fdInit) =
          .ok (p', true) ∧
        p'.steps_status[(frontendSteps.map (·.id)).indexOf "js-fund"]? =
          some .passed ∧
        ((frontendSteps.map (·.id)).indexOf "js-fund" + 1 <
            fdInit.steps_status.length →
          p'.steps_status[(frontendSteps.map (·.id)).indexOf "js-fund" + 1]? =
            some .unlocked)) ∧
      (15 ≤ 11 →
        submit_assessment "Frontend Development" "js-fund" 15 (some fdInit) =
          .ok (p', false) ∧
        p'.steps_status[(frontendSteps.map (·.id)).indexOf "js-fund"]? =
          some .unlocked ∧
        p'.steps_status[(frontendSteps.map (·.id)).indexOf "js-fund"]? ≠
          some .passed) :=
  submit_pass_fail_behaviour "Frontend Development" "js-fund" 15 frontendSteps
    (by decide) (by decide) fdInit (by decide)

/-- Claim C2 counterexample: step states do not evolve monotonically.  From
the freshly created record, passing step 0, then step 1, then re-passing
step 0 moves step 1 backwards from `passed` to `unlocked`. -/
theorem step_state_regression_counterexample :
    select_domain "u" "Frontend Development" none = .ok fdInit ∧
    submit_assessment "Frontend Development" "html-css" 15 (some fdInit) =
      .ok (fdStep0Passed, true) ∧
    submit_assessment "Frontend Development" "js-fund" 18 (some fdStep0Passed) =
      .ok (fdSteps01Passed, true) ∧
    fdSteps01Passed.steps_status[1]? = some .passed ∧
    submit_assessment "Frontend Development" "html-css" 15
        (some fdSteps01Passed) = .ok (fdRegressed, true) ∧
    fdRegressed.steps_status[1]? = some .unlocked := by
  refine ⟨rfl, rfl, rfl, rfl, rfl, rfl⟩

/-- Claim C2 (amended): `stepStates[i]` with `i > 0` starts `locked`, and no
submission ever moves a step state back to `locked`; full monotonicity fails
because a `passed` step can regress to `unlocked` (when the step is failed on
resubmission, or its predecessor is re-passed). -/
theorem step_states_never_relocked
    (user_id dom domain step_id : String) (score : Nat)
    (r p p' : RoadmapProgress) (b : Bool) (j k : Nat)
    (hr : select_domain user_id dom none = .ok r)
    (hk : 0 < k)
    (hsub : submit_assessment domain step_id score (some p) = .ok (p', b))
    (hj : p'.steps_status[j]? = some .locked) :
    (k < r.steps_status.length → r.steps_status[k]? = some .locked) ∧
    p.steps_status[j]? = some .locked := by
  constructor
  · intro hklt
    unfold select_domain at hr
    split at hr
    · split at hr
      · rename_i p0 heq
        exact nomatch heq
      · split at hr
        · simp only [Except.ok.injEq] at hr
          subst hr
          simp only [List.length_cons, List.length_replicate] at hklt
          obtain ⟨k, rfl⟩ := Nat.exists_eq_add_of_lt hk
          simp only [Nat.zero_add, List.getElem?_cons_succ]
          rw [List.getElem?_replicate]
          rw [if_pos (by omega)]
        · cases hr
    · cases hr
  · obtain ⟨steps, q, hst, hmem, hq, hb, hrec⟩ := submit_assessment_ok_inv hsub
    obtain rfl := Option.some.inj hq
    subst hrec
    exact next_steps_status_locked_mono hj

/-- Witness for the amended C2 at a concrete input: a failed submission on
the fresh record, whose result still has steps 1 and 2 `locked`. -/
theorem step_states_never_relocked_witness :
    (1 < fdInit.steps_status.length → fdInit.steps_status[1]? = some .locked) ∧
    fdInit.steps_status[2]? = some .locked :=
  step_states_never_relocked "u" "Frontend Development" "Frontend Development"
    "html-css" 5 fdInit fdInit fdFailed0 false 2 1 rfl (by decide) rfl rfl

/-- Claim C3 counterexample: a submission for a step whose recorded state is
`locked` is not rejected — it succeeds and changes the record. -/
theorem locked_step_rejection_counterexample :
    fdInit.steps_status[1]? = some .locked ∧
    submit_assessment "Frontend Development" "js-fund" 15 (some fdInit) =
      .ok (fdSkipAhead, true) ∧
    fdSkipAhead ≠ fdInit := by
  refine ⟨rfl, rfl, by decide⟩

/-- Claim C3 (amended): `submit_assessment` performs no gating on the
recorded step state: a submission for a `locked` step (valid domain and
step, record present) is accepted like any other — the result is appended
and the step's state is overwritten, no longer `locked`. -/
theorem locked_step_submission_accepted
    (domain step_id : String) (score : Nat) (steps : List RoadmapStep)
    (hd : stepsFor domain = some steps) (hs : step_id ∈ steps.map (·.id))
    (p : RoadmapProgress)
    (hlock : p.steps_status[(steps.map (·.id)).indexOf step_id]? =
      some .locked) :
    ∃ p' b, submit_assessment domain step_id score (some p) = .ok (p', b) ∧
      p'.results = p.results ++ [⟨domain, step_id, score, b⟩] ∧
      p'.steps_status[(steps.map (·.id)).indexOf step_id]? ≠ some .locked := by
  have hilt : (steps.map (·.id)).indexOf step_id < p.steps_status.length :=
    (List.getElem?_eq_some.mp hlock).1
  refine ⟨_, _, submit_assessment_ok hd hs p, rfl, ?_⟩
  by_cases hps : PASS_MARKS ≤ score
  · simp only [decide_eq_true hps]
    rw [next_steps_status_self_pass hilt]
    simp
  · simp only [decide_eq_false hps]
    rw [next_steps_status_self_fail hilt]
    simp

/-- Witness for the amended C3 at a concrete input: submitting the locked
step `"js-fund"` on the fresh record. -/
theorem locked_step_submission_accepted_witness :
    ∃ p' b,
      submit_assessment "Frontend Development" "js-fund" 15 (some fdInit) =
        .ok (p', b) ∧
      p'.results = fdInit.results ++ [⟨"Frontend Development", "js-fund", 15, b⟩] ∧
      p'.steps_status[(frontendSteps.map (·.id)).indexOf "js-fund"]? ≠
        some .locked :=
  locked_step_submission_accepted "Frontend Development" "js-fund" 15
    frontendSteps (by decide) (by decide) fdInit (by decide)

/-- Claim C4: `current_step_index` is monotonically non-decreasing across any
sequence of submissions, and a single accepted submission sets it to
`stepIndex + 1` exactly when the submission passed and
`stepIndex ≥ currentStepIndex`; a failed submission, or a passing one with
`stepIndex < currentStepIndex`, leaves it unchanged. -/
theorem current_step_index_monotone
    (q : RoadmapProgress) (l : List (String × String × Nat))
    (domain step_id : String) (score : Nat) (steps : List RoadmapStep)
    (p p' : RoadmapProgress) (b : Bool)
    (hd : stepsFor domain = some steps)
    (h : submit_assessment domain step_id score (some p) = .ok (p', b)) :
    q.current_step_index ≤ (run_submissions q l).current_step_index ∧
    (b = true ∧ p.current_step_index ≤ (steps.map (·.id)).indexOf step_id →
      p'.current_step_index = (steps.map (·.id)).indexOf step_id + 1) ∧
    (b = false ∨ (steps.map (·.id)).indexOf step_id < p.current_step_index →
      p'.current_step_index = p.current_step_index) := by
  obtain ⟨steps', q', hst, hmem, hq, hb, hrec⟩ := submit_assessment_ok_inv h
  obtain rfl := Option.some.inj hq
  rw [hst] at hd
  obtain rfl := Option.some.inj hd
  subst hrec
  refine ⟨?_, fun hc => ?_, fun hc => ?_⟩
  · induction l generalizing q with
    | nil => exact le_refl _
    | cons s rest ih =>
      exact le_trans (csi_le_apply_submission q s) (ih _)
  · obtain ⟨hbt, hle⟩ := hc
    subst hbt
    dsimp only
    unfold next_csi
    rw [if_pos ⟨rfl, hle⟩]
  · dsimp only
    unfold next_csi
    rw [if_neg]
    rintro ⟨hb1, hb2⟩
    rcases hc with hc | hc
    · rw [hc] at hb1
      cases hb1
    · omega

/-- Witness for C4 at a concrete input: passing step 0 on the fresh record
advances `current_step_index` from 0 to 1. -/
theorem current_step_index_monotone_witness :
    fdInit.current_step_index ≤
      (run_submissions fdInit
        [("Frontend Development", "html-css", 15)]).current_step_index ∧
    (true = true ∧
        fdInit.current_step_index ≤
          (frontendSteps.map (·.id)).indexOf "html-css" →
      fdStep0Passed.current_step_index =
        (frontendSteps.map (·.id)).indexOf "html-css" + 1) ∧
    (true = false ∨
        (frontendSteps.map (·.id)).indexOf "html-css" <
          fdInit.current_step_index →
      fdStep0Passed.current_step_index = fdInit.current_step_index) :=
  current_step_index_monotone fdInit [("Frontend Development", "html-css", 15)]
    "Frontend Development" "html-css" 15 frontendSteps fdInit fdStep0Passed
    true (by decide) rfl

/-- Claim C5: selecting a domain guarantees a progress record exists
afterwards: with no prior record it creates `currentStepIndex = 0`,
`stepStates = [unlocked, locked, ..., locked]` sized to the domain's step
count, and empty `results`; with a prior record it is a no-op, so a second
call returns the same record. -/
theorem select_domain_initializes
    (user_id domain : String) (steps : List RoadmapStep)
    (hd : stepsFor domain = some steps) (prog : Option RoadmapProgress) :
    ∃ r, select_domain user_id domain prog = .ok r ∧
      (prog = none →
        r = { user_id := user_id, domain := domain, current_step_index := 0,
              steps_status :=
                .unlocked :: List.replicate (steps.length - 1) .locked,
              results := [] } ∧
        r.steps_status.length = steps.length ∧
        r.steps_status[0]? = some .unlocked) ∧
      (∀ p, prog = some p → r = p) ∧
      select_domain user_id domain (some r) = .ok r := by
  have hmem : domain ∈ ALLOWED_DOMAINS := (stepsFor_spec hd).1
  have hlen : steps.length = 3 := (stepsFor_spec hd).2
  cases prog with
  | none =>
    refine ⟨{ user_id := user_id, domain := domain, current_step_index := 0,
              steps_status :=
                .unlocked :: List.replicate (steps.length - 1) .locked,
              results := [] }, ?_, fun _ => ⟨rfl, ?_, by simp⟩, ?_, ?_⟩
    · simp only [select_domain, if_pos hmem, hd]
    · simp only [List.length_cons, List.length_replicate]
      omega
    · intro p hp
      exact nomatch hp
    · simp only [select_domain, if_pos hmem]
  | some p =>
    refine ⟨p, ?_, ?_, ?_, ?_⟩
    · simp only [select_domain, if_pos hmem]
    · intro hnone
      exact nomatch hnone
    · intro q hq
      exact Option.some.inj hq
    · simp only [select_domain, if_pos hmem]

/-- Witness for C5 at a concrete input: selecting "AI & ML" with no prior
record. -/
theorem select_domain_initializes_witness :
    ∃ r, select_domain "u3" "AI & ML" none = .ok r ∧
      ((none : Option RoadmapProgress) = none →
        r = { user_id := "u3", domain := "AI & ML", current_step_index := 0,
              steps_status :=
                .unlocked :: List.replicate (aimlSteps.length - 1) .locked,
              results := [] } ∧
        r.steps_status.length = aimlSteps.length ∧
        r.steps_status[0]? = some .unlocked) ∧
      (∀ p, (none : Option RoadmapProgress) = some p → r = p) ∧
      select_domain "u3" "AI & ML" (some r) = .ok r :=
  select_domain_initializes "u3" "AI & ML" aimlSteps (by decide) none

/-- Claim C6: the final assessment on an existing record fails with
`StepsIncomplete` unless every entry of `steps_status` is `passed`; when all
are passed it returns `passed = (score ≥ 60)` and stores `final_score` and
`final_passed` on the record, overwriting any prior final result. -/
theorem final_assessment_requires_all_passed
    (domain : String) (score : Nat) (p : RoadmapProgress)
    (hdom : domain ∈ ALLOWED_DOMAINS) :
    (¬ (∀ s ∈ p.steps_status, s = .passed) →
      final_assessment domain score (some p) = .error .StepsIncomplete) ∧
    ((∀ s ∈ p.steps_status, s = .passed) →
      final_assessment domain score (some p) =
        .ok ({ p with final_score := some score,
                      final_passed := some (decide (60 ≤ score)) },
             decide (60 ≤ score))) := by
  constructor
  · intro hnot
    simp only [final_assessment, if_pos hdom]
    rw [if_neg]
    intro hall
    exact hnot (by simpa using List.all_eq_true.mp hall)
  · intro hall
    simp only [final_assessment, if_pos hdom]
    rw [if_pos (List.all_eq_true.mpr (fun x hx => by simpa using hall x hx))]

/-- Witness for C6 at a concrete input: a record with all steps passed and
score 60. -/
theorem final_assessment_requires_all_passed_witness :
    final_assessment "Frontend Development" 60 (some fdAllPassed) =
      .ok ({ fdAllPassed with final_score := some 60,
                              final_passed := some true }, true) :=
  (final_assessment_requires_all_passed "Frontend Development" 60 fdAllPassed
    (by decide)).2 (by decide)

/-- Results of an all-accepted sequence: length grows by one per submission
and the previous results remain an unchanged prefix. -/
theorem run_submissions_strict_results
    (l : List (String × String × Nat)) (q q' : RoadmapProgress)
    (hq : run_submissions_strict q l = some q') :
    q'.results.length = q.results.length + l.length ∧
    q'.results.take q.results.length = q.results := by
  induction l generalizing q with
  | nil =>
    cases hq
    simp
  | cons s rest ih =>
    unfold run_submissions_strict at hq
    split at hq
    · rename_i p1 b1 hsub
      obtain ⟨steps, q0, hst, hmem, hq0, hb, hrec⟩ := submit_assessment_ok_inv hsub
      obtain rfl := Option.some.inj hq0
      subst hrec
      obtain ⟨ih1, ih2⟩ := ih _ hq
      dsimp only at ih1 ih2
      constructor
      · rw [ih1]
        simp only [List.length_append, List.length_cons, List.length_nil,
          List.length_cons]
        omega
      · have hmin : q.results.length =
            min q.results.length (q.results ++
              [(⟨s.1, s.2.1, s.2.2, b1⟩ : AssessmentResult)]).length := by
          simp only [List.length_append, List.length_cons, List.length_nil]
          omega
        rw [hmin, ← List.take_take, ih2, List.take_left]
    · cases hq

/-- Claim C7: every accepted submission appends exactly one entry
`{domain, stepId, score, passed}` to `results` (whether it passed or
failed), never mutating or removing existing entries, so after any
all-accepted sequence of submissions the length of `results` has grown by
exactly the number of submissions and the old entries are still a prefix. -/
theorem results_append_only
    (domain step_id : String) (score : Nat) (p p' q q' : RoadmapProgress)
    (b : Bool) (l : List (String × String × Nat))
    (h : submit_assessment domain step_id score (some p) = .ok (p', b))
    (hq : run_submissions_strict q l = some q') :
    p'.results = p.results ++ [⟨domain, step_id, score, b⟩] ∧
    q'.results.length = q.results.length + l.length ∧
    q'.results.take q.results.length = q.results := by
  refine ⟨?_, run_submissions_strict_results l q q' hq⟩
  obtain ⟨steps, p0, hst, hmem, hp0, hb, hrec⟩ := submit_assessment_ok_inv h
  obtain rfl := Option.some.inj hp0
  subst hrec
  rfl

/-- Witness for C7 at a concrete input: one accepted submission on the fresh
record, and a strict run of two submissions. -/
theorem results_append_only_witness :
    fdStep0Passed.results =
      fdInit.results ++ [⟨"Frontend Development", "html-css", 15, true⟩] ∧
    fdSteps01Passed.results.length = fdInit.results.length + 2 ∧
    fdSteps01Passed.results.take fdInit.results.length = fdInit.results :=
  results_append_only "Frontend Development" "html-css" 15 fdInit
    fdStep0Passed fdInit fdSteps01Passed true
    [("Frontend Development", "html-css", 15),
     ("Frontend Development", "js-fund", 18)] rfl rfl

/-- Claim C8: the length of `steps_status` is fixed at the domain's catalog
step count on creation and preserved by every submission and by the final
assessment. -/
theorem steps_status_length_stable
    (user_id domain step_id : String) (score fscore : Nat)
    (steps : List RoadmapStep) (r p p' q q' : RoadmapProgress) (b c : Bool)
    (hd : stepsFor domain = some steps)
    (hr : select_domain user_id domain none = .ok r)
    (hsub : submit_assessment domain step_id score (some p) = .ok (p', b))
    (hfin : final_assessment domain fscore (some q) = .ok (q', c)) :
    r.steps_status.length = steps.length ∧
    p'.steps_status.length = p.steps_status.length ∧
    q'.steps_status.length = q.steps_status.length := by
  have hmem : domain ∈ ALLOWED_DOMAINS := (stepsFor_spec hd).1
  have hlen : steps.length = 3 := (stepsFor_spec hd).2
  refine ⟨?_, ?_, ?_⟩
  · simp only [select_domain, if_pos hmem, hd, Except.ok.injEq] at hr
    subst hr
    simp only [List.length_cons, List.length_replicate]
    omega
  · obtain ⟨steps', p0, hst, hmem', hp0, hb, hrec⟩ :=
      submit_assessment_ok_inv hsub
    obtain rfl := Option.some.inj hp0
    subst hrec
    exact length_next_steps_status _ _ _
  · simp only [final_assessment, if_pos hmem] at hfin
    split at hfin
    · simp only [Except.ok.injEq, Prod.mk.injEq] at hfin
      rw [← hfin.1]
    · cases hfin

/-- Witness for C8 at concrete inputs: creation, a submission and a final
assessment on "Frontend Development" records. -/
theorem steps_status_length_stable_witness :
    fdInit.steps_status.length = frontendSteps.length ∧
    fdStep0Passed.steps_status.length = fdInit.steps_status.length ∧
    ({ fdAllPassed with final_score := some 60, final_passed := some true }
        : RoadmapProgress).steps_status.length =
      fdAllPassed.steps_status.length :=
  steps_status_length_stable "u" "Frontend Development" "html-css" 15 60
    frontendSteps fdInit fdInit fdStep0Passed fdAllPassed
    { fdAllPassed with final_score := some 60, final_passed := some true }
    true true (by decide) rfl rfl rfl

/-- Claim C9: for a progress record whose state array has the catalog's
length, the dashboard reports `completed` = number of `passed` entries,
`total` = length of the state array, and `percent = ⌊completed*100/total⌋`,
and the division is never by zero because the record has at least one
step. -/
theorem dashboard_item_spec
    (p : RoadmapProgress) (steps : List RoadmapStep)
    (hd : stepsFor p.domain = some steps)
    (hl : p.steps_status.length = steps.length) :
    0 < p.steps_status.length ∧
    dashboard_item p = some (p.domain,
      p.steps_status.count .passed,
      p.steps_status.length,
      p.steps_status.count .passed * 100 / p.steps_status.length) := by
  have hlen : steps.length = 3 := (stepsFor_spec hd).2
  have hc : (p.steps_status.filter (fun s => s = .passed)).length =
      p.steps_status.count .passed := by
    rw [List.count_eq_countP, List.countP_eq_length_filter]
    congr 1
  constructor
  · omega
  · simp only [dashboard_item, hd]
    rw [hl, ← hc]

/-- Witness for C9 at a concrete input: the record with step 0 passed
reports 1 of 3 steps complete. -/
theorem dashboard_item_spec_witness :
    0 < fdStep0Passed.steps_status.length ∧
    dashboard_item fdStep0Passed = some (fdStep0Passed.domain,
      fdStep0Passed.steps_status.count .passed,
      fdStep0Passed.steps_status.length,
      fdStep0Passed.steps_status.count .passed * 100 /
        fdStep0Passed.steps_status.length) :=
  dashboard_item_spec fdStep0Passed frontendSteps (by decide) (by decide)

/-- Claim C10: on a record whose `steps_status` is empty the all-passed gate
of the final assessment is vacuously satisfied, so the submission is
accepted and `final_score` / `final_passed` are stored even though no step
was ever passed. -/
theorem final_assessment_empty_steps_accepted
    (domain : String) (score : Nat) (p : RoadmapProgress)
    (hdom : domain ∈ ALLOWED_DOMAINS) (he : p.steps_status = []) :
    final_assessment domain score (some p) =
      .ok ({ p with final_score := some score,
                    final_passed := some (decide (60 ≤ score)) },
           decide (60 ≤ score)) := by
  simp only [final_assessment, if_pos hdom, he, List.all_nil, if_true]

/-- Witness for C10 at a concrete input: the empty-steps record accepts a
final score of 59 (returned `passed = false`). -/
theorem final_assessment_empty_steps_accepted_witness :
    final_assessment "AI & ML" 59 (some emptyStepsRecord) =
      .ok ({ emptyStepsRecord with final_score := some 59,
                                   final_passed := some false }, false) :=
  final_assessment_empty_steps_accepted "AI & ML" 59 emptyStepsRecord
    (by decide) rfl

end Lernify
